import Mathlib

/-!
Verification development for the hospital operating-theatre scheduling system
(`hospital_config.py`, `scheduler_engine.py`, `simulation_manager.py`).

The CP-SAT constraint model built by `EnterpriseScheduler.solve` is embedded as
a decidable satisfaction predicate `modelSat` over candidate solutions (`Cand`),
and the bounded external search is modelled by an oracle argument: `solveWith`
receives the candidate the search returned (`some c`), checks it against the
model (solver soundness: a solution returned by CP-SAT satisfies every posted
constraint), and extracts the result rows exactly as the Python code does;
`none` models the solver reporting no solution, in which case the code returns
`None`.  The `HospitalSystem` disruption controller is embedded as explicit
state passing over `SystemState`.
-/

/-! ## Resource catalog (`hospital_config.py`) -/

structure Room where
  id : Nat
  name : String
  rtype : String
  supported : List String
deriving DecidableEq, Repr

/-- ROOMS from `hospital_config.py` (13 operating theatres). -/
def ROOMS : List Room := [
  ⟨1, "OR-1 (Neuro)", "Neuro", ["Neurological", "Spinal"]⟩,
  ⟨2, "OR-2 (Neuro)", "Neuro", ["Neurological", "Spinal"]⟩,
  ⟨3, "OR-3 (Cardio)", "Cardiac", ["Cardiovascular", "Thoracic"]⟩,
  ⟨4, "OR-4 (Cardio)", "Cardiac", ["Cardiovascular", "Thoracic"]⟩,
  ⟨5, "OR-5 (General)", "General", ["General", "Orthopedic", "Cosmetic"]⟩,
  ⟨6, "OR-6 (General)", "General", ["General", "Orthopedic", "Cosmetic"]⟩,
  ⟨7, "OR-7 (Ortho)", "General", ["Orthopedic", "General"]⟩,
  ⟨8, "OR-8 (Ortho)", "General", ["Orthopedic", "General"]⟩,
  ⟨9, "OR-9 (Hybrid)", "General", ["General", "Urology", "Cosmetic"]⟩,
  ⟨10, "OR-10 (Robot)", "General", ["General", "Urology"]⟩,
  ⟨11, "OR-11 (General)", "General", ["General", "Orthopedic", "Cardiovascular"]⟩,
  ⟨12, "OR-12 (Cosmetic)", "General", ["Cosmetic", "General"]⟩,
  ⟨13, "OR-13 (Trauma Bay)", "Emergency",
    ["Neurological", "Cardiovascular", "Orthopedic", "General", "Cosmetic", "Urology"]⟩]

/-- SURGEONS from `hospital_config.py`. -/
def SURGEONS : List (String × List String) := [
  ("Dr. Strange", ["Neurological"]),
  ("Dr. Shepherd", ["Neurological"]),
  ("Dr. Yang", ["Cardiovascular"]),
  ("Dr. Burke", ["Cardiovascular"]),
  ("Dr. House", ["General", "Orthopedic"]),
  ("Dr. Grey", ["General"]),
  ("Dr. Torres", ["Orthopedic"]),
  ("Dr. Lincoln", ["Orthopedic"]),
  ("Dr. Avery", ["Cosmetic", "General"]),
  ("Dr. Bailey", ["General"])]

/-- EQUIPMENT capacities from `hospital_config.py`. -/
def EQUIPMENT : List (String × Nat) := [("C-Arm", 4), ("Robot", 1)]

/-- CONSTANTS from `hospital_config.py` (minutes of day; Python ints). -/
def DAY_START : Int := 8 * 60

def TURNOVER : Int := 30

def SURGEON_BREAK : Int := 30

/-- The scheduling horizon used in `EnterpriseScheduler.solve` (24 hours). -/
def horizon : Int := 24 * 60

/-- EMERGENCY_RESERVE_ROOM from `hospital_config.py` (OR-13, Code Red only). -/
def EMERGENCY_RESERVE_ROOM : Room :=
  ⟨13, "OR-13 (Trauma Bay)", "Emergency",
    ["Neurological", "Cardiovascular", "Orthopedic", "General", "Cosmetic", "Urology"]⟩

/-- EMERGENCY_RESERVE_SURGEONS from `hospital_config.py`. -/
def EMERGENCY_RESERVE_SURGEONS : List (String × String) := [
  ("Neurological", "Dr. Shepherd"),
  ("Cardiovascular", "Dr. Burke"),
  ("Orthopedic", "Dr. Lincoln"),
  ("General", "Dr. Grey"),
  ("Cosmetic", "Dr. Avery"),
  ("Urology", "Dr. Grey")]

/-- The reserve-surgeon names (the values of EMERGENCY_RESERVE_SURGEONS). -/
def reserveSurgeonNames : List String := EMERGENCY_RESERVE_SURGEONS.map (fun kv => kv.2)

/-- Regular rooms, as filtered in `HospitalSystem.__init__`:
every catalog room except the emergency reserve room. -/
def regularRooms : List Room := ROOMS.filter (fun r => r.id != EMERGENCY_RESERVE_ROOM.id)

/-- Regular surgeon pool, as filtered in `HospitalSystem.__init__`:
the surgeon dictionary without any emergency reserve surgeon. -/
def regularSurgeons : List (String × List String) :=
  SURGEONS.filter (fun kv => !(reserveSurgeonNames.contains kv.1))

/-! ## Case records and schedule rows -/

/-- A patient dict as passed to `EnterpriseScheduler.solve`.  Optional dict
keys are `Option` fields; `ready_time` is read with `p.get('ready_time', 0)`
throughout the Python code, so an absent key is represented by `0`.
All minute quantities are Python ints, hence `Int`: in particular a signed
duration adjustment can drive `duration` negative, which invalidates the
CP-SAT model (see `patientOk`). -/
structure Patient where
  pid : String
  ptype : String
  surgeon : Option String
  duration : Int
  asaScore : Nat
  needsCArm : Bool
  needsRobot : Bool
  readyTime : Int := 0
  fixedStart : Option Int := none
  fixedRoom : Option String := none
  minStartTime : Option Int := none
  roomUnavailable : List (String × Int) := []
deriving DecidableEq, Repr

/-- One row of the schedule DataFrame produced by `EnterpriseScheduler.solve`
(and by `HospitalSystem.handle_code_red`). -/
structure Row where
  patientId : String
  rtype : String
  surgeon : Option String
  room : String
  startTime : String
  endTime : String
  duration : Int
  startMins : Int
  endMins : Int
  risk : Nat
deriving DecidableEq, Repr

/-- Python dict lookup `d.get(k, default)` on an association list. -/
def lookupD (l : List (String × Int)) (k : String) (d : Int) : Int :=
  (((l.find? (fun kv => kv.1 == k)).map (fun kv => kv.2)).getD d)

/-- Python dict lookup `d.get(k, default)` on the equipment-capacity dict. -/
def lookupCap (l : List (String × Nat)) (k : String) (d : Nat) : Nat :=
  (((l.find? (fun kv => kv.1 == k)).map (fun kv => kv.2)).getD d)

/-- Python dict assignment `d[k] = v` on an association list. -/
def setEntry (l : List (String × Int)) (k : String) (v : Int) : List (String × Int) :=
  if l.any (fun kv => kv.1 == k) then
    l.map (fun kv => if kv.1 == k then (k, v) else kv)
  else
    l ++ [(k, v)]

/-- The rooms whose supported-specialty list contains the patient's type, in
catalog order (the rooms for which `solve` creates a boolean variable). -/
def compatRooms (rooms : List Room) (p : Patient) : List Room :=
  rooms.filter (fun r => p.ptype ∈ r.supported)

/-! ## The constraint model of `EnterpriseScheduler.solve` -/

/-- A candidate solution of the CP-SAT model: values for the per-patient
start and end variables and the per-(patient, room) booleans. -/
structure Cand where
  startv : String → Int
  endv : String → Int
  inRoom : String → Nat → Bool

/-- Two right-open intervals, given as (start, length), do not overlap. -/
def iDisj (a b : Int × Int) : Bool :=
  decide (a.1 + a.2 ≤ b.1) || decide (b.1 + b.2 ≤ a.1)

/-- All pairs of intervals in the list are disjoint (`AddNoOverlap`). -/
def pairwiseDisjoint : List (Int × Int) → Bool
  | [] => true
  | a :: rest => rest.all (iDisj a) && pairwiseDisjoint rest

/-- The per-patient constraints posted by `EnterpriseScheduler.solve`:
the interval-size validity `0 ≤ duration` (`NewIntervalVar` with a negative
constant size makes the CP-SAT model invalid, and an invalid model lands in
the same non-OPTIMAL/FEASIBLE branch — return `None` — as infeasibility),
variable domains, the interval equation `end = start + duration`, the
`ready_time` floor, the pinning logic (`fixed_start` else `min_start_time`),
the surgeon-end variable domain, and — per compatible room — the
room-unavailability floor (posted unconditionally in the code), the
`fixed_room` boolean forcing, the optional room-interval end-variable domain,
and the exactly-one-room constraint (skipped when no room is compatible). -/
def patientOk (rooms : List Room) (c : Cand) (p : Patient) : Bool :=
  let s := c.startv p.pid
  let e := c.endv p.pid
  decide (0 ≤ p.duration) &&
  decide (DAY_START ≤ s) && decide (s ≤ horizon) &&
  decide (DAY_START ≤ e) && decide (e ≤ horizon) &&
  decide (e = s + p.duration) &&
  (!(decide (DAY_START < p.readyTime)) || decide (p.readyTime ≤ s)) &&
  (match p.fixedStart with
   | some fs => decide (s = fs)
   | none =>
     match p.minStartTime with
     | some ms => decide (ms ≤ s)
     | none => true) &&
  (match p.surgeon with
   | some _ => decide (s + (p.duration + SURGEON_BREAK) ≤ horizon)
   | none => true) &&
  ((compatRooms rooms p).all (fun r =>
    (!(decide (0 < lookupD p.roomUnavailable r.name 0)) ||
      decide (lookupD p.roomUnavailable r.name 0 ≤ s)) &&
    (match p.fixedRoom with
     | some fr => c.inRoom p.pid r.id == (fr == r.name)
     | none => true) &&
    (!(c.inRoom p.pid r.id) || decide (s + (p.duration + TURNOVER) ≤ horizon)))) &&
  (decide (compatRooms rooms p = []) ||
    decide ((compatRooms rooms p).countP (fun r => c.inRoom p.pid r.id) = 1))

/-- The occupancy intervals of a given room: one interval of length
`duration + TURNOVER` per compatible patient placed in that room. -/
def roomIntervals (patients : List Patient) (c : Cand) (r : Room) : List (Int × Int) :=
  (patients.filter (fun p => decide (p.ptype ∈ r.supported) && c.inRoom p.pid r.id)).map
    (fun p => (c.startv p.pid, p.duration + TURNOVER))

/-- The occupancy intervals of a given surgeon: one interval of length
`duration + SURGEON_BREAK` per patient assigned to that surgeon. -/
def surgeonIntervals (patients : List Patient) (c : Cand) (d : String) : List (Int × Int) :=
  (patients.filter (fun p => p.surgeon == some d)).map
    (fun p => (c.startv p.pid, p.duration + SURGEON_BREAK))

/-- The patients contributing a master interval to an equipment resource:
those with the flag set that were not skipped for lack of a compatible room
(the `continue` in `solve` happens before equipment tracking). -/
def equipIntervals (rooms : List Room) (patients : List Patient) (c : Cand)
    (flag : Patient → Bool) : List (Int × Int) :=
  (patients.filter (fun p => flag p && !(decide (compatRooms rooms p = [])))).map
    (fun p => (c.startv p.pid, p.duration))

/-- The cumulative constraint `AddCumulative(intervals, [1]*n, cap)` for
unit demands, checked at every interval start point (for right-open
intervals the concurrent count is maximal at some interval's start). -/
def cumulativeOk (ivs : List (Int × Int)) (cap : Nat) : Bool :=
  ivs.all (fun iv =>
    decide (ivs.countP (fun jv => decide (jv.1 ≤ iv.1) && decide (iv.1 < jv.1 + jv.2)) ≤ cap))

/-- Satisfaction of the complete constraint model built by
`EnterpriseScheduler.solve` for the given room list and patient list. -/
def modelSat (rooms : List Room) (patients : List Patient) (c : Cand) : Bool :=
  patients.all (patientOk rooms c) &&
  rooms.all (fun r => pairwiseDisjoint (roomIntervals patients c r)) &&
  (patients.filterMap (fun p => p.surgeon)).all
    (fun d => pairwiseDisjoint (surgeonIntervals patients c d)) &&
  cumulativeOk (equipIntervals rooms patients c (fun p => p.needsCArm))
    (lookupCap EQUIPMENT "C-Arm" 100) &&
  cumulativeOk (equipIntervals rooms patients c (fun p => p.needsRobot))
    (lookupCap EQUIPMENT "Robot" 100)

/-! ## Result extraction (`solve`, lines 171-199) -/

/-- Python `f"{n:02d}"` for the hour/minute fields (the values rendered come
from the non-negative domain [480, 1440], where this matches Python
exactly). -/
def fmt2 (n : Int) : String :=
  if n < 10 then "0" ++ toString n else toString n

/-- The `HH:MM` rendering `f"{m//60:02d}:{m%60:02d}"` used for the
Start Time / End Time columns; Python `//` and `%` are floor division and
floor modulo, `Int.fdiv` and `Int.fmod`. -/
def fmtHHMM (m : Int) : String := fmt2 (Int.fdiv m 60) ++ ":" ++ fmt2 (Int.fmod m 60)

/-- One result row, as built in the extraction loop of `solve`: the assigned
room is the first catalog room whose boolean is set (only compatible rooms
have booleans), defaulting to "Waitlist". -/
def extractRow (rooms : List Room) (c : Cand) (p : Patient) : Row :=
  { patientId := p.pid
    rtype := p.ptype
    surgeon := p.surgeon
    room := (((compatRooms rooms p).find? (fun r => c.inRoom p.pid r.id)).map
      (fun r => r.name)).getD "Waitlist"
    startTime := fmtHHMM (c.startv p.pid)
    endTime := fmtHHMM (c.endv p.pid)
    duration := p.duration
    startMins := c.startv p.pid
    endMins := c.endv p.pid
    risk := p.asaScore }

/-- Ascending stable sort by `start_mins` (`DataFrame.sort_values('start_mins')`). -/
def rowLE (a b : Row) : Prop := a.startMins ≤ b.startMins

instance : DecidableRel rowLE := fun a b => Int.decLe a.startMins b.startMins

instance : IsTotal Row rowLE := ⟨fun a b => Int.le_total a.startMins b.startMins⟩

instance : IsTrans Row rowLE := ⟨fun _ _ _ h h2 => le_trans h h2⟩

def sortByStart (rows : List Row) : List Row := rows.insertionSort rowLE

/-- `EnterpriseScheduler.solve`, with the bounded CP-SAT search abstracted as
the oracle `found`: `some c` is the solution the search returned (checked
against the model, since CP-SAT only returns solutions satisfying every
posted constraint), `none` the no-solution outcome; in either failure case
the Python code prints and returns `None`. -/
def solveWith (rooms : List Room) (patients : List Patient) (found : Option Cand) :
    Option (List Row) :=
  match found with
  | none => none
  | some c =>
    if modelSat rooms patients c then
      some (sortByStart (patients.map (extractRow rooms c)))
    else
      none

/-! ## The disruption controller (`simulation_manager.py`) -/

/-- The state owned by `HospitalSystem`: the active patient dicts and the
current schedule (`None` before the first solve or after a failed one). -/
structure SystemState where
  activePatients : List Patient
  currentSchedule : Option (List Row)
deriving DecidableEq, Repr

/-- Step 1 of `handle_emergency`: add the (signed) delay to the target's
duration, `target_p['duration'] += added_delay`. -/
def durAdjust (pid : String) (delta : Int) (p : Patient) : Patient :=
  if p.pid == pid then { p with duration := p.duration + delta } else p

/-- Step 2 of `handle_emergency` (the pin logic): a patient whose scheduled
start is strictly before `now` is pinned to that start and room; a future
patient has its pins popped and `min_start_time` set to `now`.  A patient
with no schedule row is left unchanged. -/
def pinEmergency (sched : List Row) (nowMins : Int) (p : Patient) : Patient :=
  match sched.find? (fun row => row.patientId == p.pid) with
  | none => p
  | some row =>
    if row.startMins < nowMins then
      { p with fixedStart := some row.startMins, fixedRoom := some row.room }
    else
      { p with fixedStart := none, fixedRoom := none, minStartTime := some nowMins }

/-- `HospitalSystem.handle_emergency(patient_id, added_delay, current_time)`:
adjust the duration, pin the past, re-solve, and store the solve result
(whatever it is, including `None`) as the current schedule.  `nowMins` is
`current_time_hhmm` parsed as `h * 60 + m`. -/
def handle_emergency (st : SystemState) (pid : String) (delta : Int) (nowMins : Int)
    (found : Option Cand) : SystemState :=
  let pts := st.activePatients.map (durAdjust pid delta)
  let pts2 := match st.currentSchedule with
    | none => pts
    | some sched => pts.map (pinEmergency sched nowMins)
  { activePatients := pts2, currentSchedule := solveWith regularRooms pts2 found }

/-- The per-patient mutation of `handle_start_delay`, by delay reason:
surgeon-late raises `ready_time` on every patient of the target's surgeon;
a room reason (with a room given) records `room_unavailable[room] = ready`
on every patient, or falls back to raising only the target's `ready_time`
when no room is named; any other reason raises only the target's
`ready_time`.  Every `ready_time` update takes the max with the existing
value. -/
def delayAdjust (pid reason : String) (tSurg : Option String) (readyMins : Int)
    (roomName : Option String) (p : Patient) : Patient :=
  if reason == "Surgeon Running Late" then
    if p.surgeon == tSurg then { p with readyTime := max p.readyTime readyMins } else p
  else if reason == "Room Cleaning" || reason == "OT Not Ready" then
    match roomName with
    | some rn => { p with roomUnavailable := setEntry p.roomUnavailable rn readyMins }
    | none =>
      if p.pid == pid then { p with readyTime := max p.readyTime readyMins } else p
  else
    if p.pid == pid then { p with readyTime := max p.readyTime readyMins } else p

/-- The pin logic of `handle_start_delay`: like `pinEmergency`, except that a
future patient only gets `min_start_time := now` when its `ready_time` is
absent (represented by `0`) or earlier than `now`; otherwise its previous
`min_start_time` is kept. -/
def pinDelay (sched : List Row) (nowMins : Int) (p : Patient) : Patient :=
  match sched.find? (fun row => row.patientId == p.pid) with
  | none => p
  | some row =>
    if row.startMins < nowMins then
      { p with fixedStart := some row.startMins, fixedRoom := some row.room }
    else
      let ms := if p.readyTime == 0 || decide (p.readyTime < nowMins) then some nowMins
        else p.minStartTime
      { p with fixedStart := none, fixedRoom := none, minStartTime := ms }

/-- `HospitalSystem.handle_start_delay(patient_id, delay_reason,
new_ready_time, current_time, room_name)`: when the named patient is not
in the active set, warn and return the current schedule with no mutation;
otherwise apply the per-reason mutation, pin the past, re-solve and store
the result. -/
def handle_start_delay (st : SystemState) (pid reason : String) (readyMins nowMins : Int)
    (roomName : Option String) (found : Option Cand) : SystemState :=
  match st.activePatients.find? (fun p => p.pid == pid) with
  | none => st
  | some target =>
    let pts := st.activePatients.map (delayAdjust pid reason target.surgeon readyMins roomName)
    let pts2 := match st.currentSchedule with
      | none => pts
      | some sched => pts.map (pinDelay sched nowMins)
    { activePatients := pts2, currentSchedule := solveWith regularRooms pts2 found }

/-- The attributes of a Code Red case that the booking uses. -/
structure EmergencyDetails where
  pid : String
  surgeryType : String
  asaScore : Nat
deriving Repr

/-- The reserve surgeon looked up in `handle_code_red`:
`EMERGENCY_RESERVE_SURGEONS.get(surgery_type, 'Dr. Grey')`. -/
def reserveSurgeonFor (ty : String) : String :=
  (((EMERGENCY_RESERVE_SURGEONS.find? (fun kv => kv.1 == ty)).map
    (fun kv => kv.2)).getD "Dr. Grey")

/-- The schedule row appended by `handle_code_red`; `durationPred` is the
value returned by the external duration-prediction service. -/
def codeRedRow (details : EmergencyDetails) (nowMins durationPred : Int) : Row :=
  { patientId := details.pid
    rtype := details.surgeryType
    surgeon := some (reserveSurgeonFor details.surgeryType)
    room := EMERGENCY_RESERVE_ROOM.name
    startTime := fmtHHMM nowMins
    endTime := fmtHHMM (nowMins + durationPred)
    duration := durationPred
    startMins := nowMins
    endMins := nowMins + durationPred
    risk := details.asaScore }

/-- `HospitalSystem.handle_code_red(patient_details, current_time)`: append
the direct-booked row to the current schedule (creating a one-row schedule
when there is none) and sort the result by `start_mins`.  The optimizer is
not invoked and the active patient set is untouched. -/
def handle_code_red (st : SystemState) (details : EmergencyDetails)
    (nowMins durationPred : Int) : SystemState :=
  let newRow := codeRedRow details nowMins durationPred
  let sched := match st.currentSchedule with
    | none => [newRow]
    | some s => s ++ [newRow]
  { st with currentSchedule := some (sortByStart sched) }

/-- A disruption event that triggers a re-solve: a duration adjustment
(`handle_emergency`, with a signed delay) or a start delay of any reason
(`handle_start_delay`). -/
inductive Disruption where
  | durationAdjust (pid : String) (delta : Int)
  | startDelay (pid reason : String) (readyMins : Int) (roomName : Option String)

/-- Dispatch of a disruption event at the `now` cursor to the corresponding
controller operation. -/
def applyDisruption (st : SystemState) (ev : Disruption) (nowMins : Int)
    (found : Option Cand) : SystemState :=
  match ev with
  | .durationAdjust pid delta => handle_emergency st pid delta nowMins found
  | .startDelay pid reason readyMins roomName =>
    handle_start_delay st pid reason readyMins nowMins roomName found

/-! ## General lemmas about the embedding -/

theorem mem_sortByStart {a : Row} {l : List Row} : a ∈ sortByStart l ↔ a ∈ l :=
  List.mem_insertionSort rowLE

theorem sortByStart_perm (l : List Row) : List.Perm (sortByStart l) l :=
  List.perm_insertionSort rowLE l

theorem sortByStart_sorted (l : List Row) : (sortByStart l).Sorted rowLE :=
  List.sorted_insertionSort rowLE l

theorem modelSat_patient {rooms : List Room} {pts : List Patient} {c : Cand} {p : Patient}
    (hms : modelSat rooms pts c = true) (hp : p ∈ pts) : patientOk rooms c p = true := by
  simp only [modelSat, Bool.and_eq_true, List.all_eq_true] at hms
  exact hms.1.1.1.1 p hp

/-- Destructuring of the per-patient constraints into propositional facts. -/
theorem patientOk_facts {rooms : List Room} {c : Cand} {p : Patient}
    (h : patientOk rooms c p = true) :
    0 ≤ p.duration ∧
    DAY_START ≤ c.startv p.pid ∧ c.startv p.pid ≤ horizon ∧
    DAY_START ≤ c.endv p.pid ∧ c.endv p.pid ≤ horizon ∧
    c.endv p.pid = c.startv p.pid + p.duration ∧
    (DAY_START < p.readyTime → p.readyTime ≤ c.startv p.pid) ∧
    (∀ fs, p.fixedStart = some fs → c.startv p.pid = fs) ∧
    (∀ r ∈ compatRooms rooms p,
      (0 < lookupD p.roomUnavailable r.name 0 →
        lookupD p.roomUnavailable r.name 0 ≤ c.startv p.pid) ∧
      (∀ fr, p.fixedRoom = some fr → c.inRoom p.pid r.id = (fr == r.name))) ∧
    (compatRooms rooms p ≠ [] →
      (compatRooms rooms p).countP (fun r => c.inRoom p.pid r.id) = 1) := by
  simp only [patientOk, Bool.and_eq_true, decide_eq_true_eq, List.all_eq_true,
    Bool.or_eq_true, Bool.not_eq_true', decide_eq_false_iff_not] at h
  obtain ⟨⟨⟨⟨⟨⟨⟨⟨⟨⟨hd0, hs1⟩, hs2⟩, he1⟩, he2⟩, hdur⟩, hready⟩, hfix⟩, _hsurg⟩, hrooms⟩,
    hone⟩ := h
  refine ⟨hd0, hs1, hs2, he1, he2, hdur, ?_, ?_, ?_, ?_⟩
  · intro hrt
    rcases hready with h1 | h1
    · exact absurd hrt h1
    · exact h1
  · intro fs hfs
    rw [hfs] at hfix
    simpa using hfix
  · intro r hr
    have := hrooms r hr
    simp only [Bool.and_eq_true, Bool.or_eq_true, Bool.not_eq_true',
      decide_eq_false_iff_not, decide_eq_true_eq] at this
    obtain ⟨⟨hu, hforce⟩, _hint⟩ := this
    refine ⟨?_, ?_⟩
    · intro hupos
      rcases hu with h1 | h1
      · exact absurd hupos h1
      · exact h1
    · intro fr hfr
      rw [hfr] at hforce
      simpa using hforce
  · intro hne
    rcases hone with h1 | h1
    · exact absurd h1 hne
    · exact h1

/-! ## Concrete instances for the claims -/

/-- A General case annotated with a room-unavailability window on OR-5. -/
def p2 : Patient :=
  { pid := "P2", ptype := "General", surgeon := none, duration := 60, asaScore := 1,
    needsCArm := false, needsRobot := false, roomUnavailable := [("OR-5 (General)", 600)] }

/-- Candidate placing `p2` in OR-6 at 08:00 (before OR-5 becomes available). -/
def c2a : Cand := ⟨fun _ => 480, fun _ => 540, fun _ rid => rid == 6⟩

/-- Candidate placing `p2` in OR-6 at 10:00 (after OR-5 becomes available). -/
def c2b : Cand := ⟨fun _ => 600, fun _ => 660, fun _ rid => rid == 6⟩


/-- A General case whose record names the reserve surgeon Dr. Grey. -/
def p3 : Patient :=
  { pid := "P3", ptype := "General", surgeon := some "Dr. Grey", duration := 60,
    asaScore := 2, needsCArm := false, needsRobot := false }

/-- Candidate placing `p3` in OR-5 at 08:00. -/
def c3 : Cand := ⟨fun _ => 480, fun _ => 540, fun _ rid => rid == 5⟩


/-- A pinned case whose min-start floor exceeds its pinned start. -/
def p4m : Patient :=
  { pid := "P4", ptype := "General", surgeon := none, duration := 60, asaScore := 1,
    needsCArm := false, needsRobot := false,
    fixedStart := some 500, fixedRoom := some "OR-5 (General)", minStartTime := some 600 }

/-- The same case with a ready floor exceeding the pinned start instead. -/
def p4r : Patient :=
  { pid := "P4", ptype := "General", surgeon := none, duration := 60, asaScore := 1,
    needsCArm := false, needsRobot := false,
    readyTime := 600, fixedStart := some 500, fixedRoom := some "OR-5 (General)" }

/-- Candidate scheduling `p4m`/`p4r` exactly at the pin (start 500, OR-5). -/
def c4m : Cand := ⟨fun _ => 500, fun _ => 560, fun _ rid => rid == 5⟩

/-- Candidate scheduling the case at its ready floor instead (start 600, OR-5). -/
def c4b : Cand := ⟨fun _ => 600, fun _ => 660, fun _ rid => rid == 5⟩


/-- A case of a type no catalog room supports. -/
def p6 : Patient :=
  { pid := "P6", ptype := "Dental", surgeon := none, duration := 60, asaScore := 1,
    needsCArm := false, needsRobot := false }

/-- An ordinary General case scheduled alongside `p6`. -/
def p6b : Patient :=
  { pid := "P6B", ptype := "General", surgeon := none, duration := 60, asaScore := 1,
    needsCArm := false, needsRobot := false }

/-- Candidate: `p6` (no room boolean exists) at 08:00, `p6b` in OR-5 at 10:00. -/
def c6 : Cand :=
  ⟨fun pid => if pid == "P6" then 480 else 600,
   fun pid => if pid == "P6" then 540 else 660,
   fun pid rid => pid == "P6B" && rid == 5⟩


/-- The previously computed schedule row for case PA (started 08:00, OR-5). -/
def schedRowA : Row :=
  { patientId := "PA", rtype := "General", surgeon := none, room := "OR-5 (General)",
    startTime := "08:00", endTime := "09:00", duration := 60,
    startMins := 480, endMins := 540, risk := 1 }

/-- Case PA: started at 08:00, and a later start-delay raised its ready floor
to 11:00 (660). -/
def pA : Patient :=
  { pid := "PA", ptype := "General", surgeon := none, duration := 60, asaScore := 1,
    needsCArm := false, needsRobot := false, readyTime := 660 }

/-- Controller state before the infeasible duration-adjustment event. -/
def st1 : SystemState := { activePatients := [pA], currentSchedule := some [schedRowA] }

/-- The patient PA after `handle_emergency` adjusts and pins it at `now = 600`. -/
def pA2 : Patient := pinEmergency [schedRowA] 600 (durAdjust "PA" 30 pA)


def schedRow5 : Row :=
  { patientId := "P5", rtype := "General", surgeon := none, room := "OR-5 (General)",
    startTime := "08:00", endTime := "09:00", duration := 60,
    startMins := 480, endMins := 540, risk := 1 }

def p5 : Patient :=
  { pid := "P5", ptype := "General", surgeon := none, duration := 60, asaScore := 1,
    needsCArm := false, needsRobot := false }

def st5 : SystemState := { activePatients := [p5], currentSchedule := some [schedRow5] }

def c5c : Cand := ⟨fun _ => 480, fun _ => 570, fun _ rid => rid == 5⟩




/-! ## Claim theorems -/

/-- Claim C2 is false on the code: `solve` posts the `room_unavailable` floor
unconditionally (for every compatible room with a positive window), not
gated on that room's boolean.  With `room_unavailable["OR-5"] = 600`, the
candidate placing the case in OR-6 at 08:00 violates the model, while the
identical placement at 10:00 satisfies it — so the start is constrained by
the OR-5 window even though OR-5 is not the chosen room. -/
theorem c2_counterexample :
    modelSat regularRooms [p2] c2a = false ∧ modelSat regularRooms [p2] c2b = true :=
  ⟨by decide, by decide⟩

/-- Claim C2 (amended): for every case and every room compatible with it
that has a positive `room_unavailable` window, any solution of the model
starts the case no earlier than that window — regardless of which room the
case is actually placed in. -/
theorem c2_amended (pts : List Patient) (c : Cand) (p : Patient) (r : Room)
    (hp : p ∈ pts) (hr : r ∈ compatRooms regularRooms p)
    (hpos : 0 < lookupD p.roomUnavailable r.name 0)
    (hms : modelSat regularRooms pts c = true) :
    lookupD p.roomUnavailable r.name 0 ≤ c.startv p.pid := by
  have hf := patientOk_facts (modelSat_patient hms hp)
  exact (hf.2.2.2.2.2.2.2.2.1 r hr).1 hpos

/-- Concrete instantiation of `c2_amended` at `p2`, OR-5 and the candidate
`c2b` that places the case in OR-6. -/
theorem c2_witness : lookupD p2.roomUnavailable "OR-5 (General)" 0 ≤ c2b.startv p2.pid :=
  c2_amended [p2] c2b p2
    ⟨5, "OR-5 (General)", "General", ["General", "Orthopedic", "Cosmetic"]⟩
    (by decide) (by decide) (by decide) (by decide)

/-- The row the regular solve produces for `p3` in candidate `c3`. -/
def c3row : Row :=
  { patientId := "P3", rtype := "General", surgeon := some "Dr. Grey",
    room := "OR-5 (General)", startTime := "08:00", endTime := "09:00",
    duration := 60, startMins := 480, endMins := 540, risk := 2 }

/-- Claim C3 is false on the code: a regular solve of a case whose record
names the reserve surgeon Dr. Grey returns a row assigned to Dr. Grey —
nothing in `solve` checks the surgeon pool. -/
theorem c3_counterexample :
    solveWith regularRooms [p3] (some c3) = some [c3row] ∧
    "Dr. Grey" ∈ reserveSurgeonNames :=
  ⟨by decide, by decide⟩

/-- Claim C3 (amended): the surgeon pool handed to the scheduler excludes
every reserve surgeon, but the solve copies each case's own surgeon field
into its row without consulting that pool, so a case record naming a
reserve surgeon is scheduled with that reserve surgeon. -/
theorem c3_amended :
    reserveSurgeonNames.all (fun s => !(regularSurgeons.any (fun kv => kv.1 == s))) = true ∧
    (∀ rooms c p, (extractRow rooms c p).surgeon = p.surgeon) :=
  ⟨by decide, fun _ _ _ => rfl⟩

/-- Claim C4 is false on the code: for a case pinned at 500 whose
`ready_time` is 600, both the pin-conformant candidate (start 500) and the
ready-conformant candidate (start 600) violate the model — the `ready_time`
floor is posted independently of the pin, so the model is infeasible rather
than scheduling the case at its pinned start. -/
theorem c4_counterexample :
    modelSat regularRooms [p4r] c4m = false ∧ modelSat regularRooms [p4r] c4b = false :=
  ⟨by decide, by decide⟩

/-- Claim C4 (amended): a pinned case's start is fixed to exactly
`pinned_start` and its room booleans are forced to exactly `pinned_room`,
and the `min_start_time` floor is skipped for a pinned case; but the
`ready_time` floor still applies to it, so when `ready_time` exceeds the
pinned start the model admits no solution. -/
theorem c4_amended (pts : List Patient) (c : Cand) (p : Patient) (s : Int)
    (hp : p ∈ pts) (hms : modelSat regularRooms pts c = true)
    (hfs : p.fixedStart = some s) :
    c.startv p.pid = s ∧
    (DAY_START < p.readyTime → p.readyTime ≤ s) ∧
    (∀ rn, p.fixedRoom = some rn → ∀ r ∈ compatRooms regularRooms p,
      c.inRoom p.pid r.id = (rn == r.name)) := by
  have hf := patientOk_facts (modelSat_patient hms hp)
  have hst : c.startv p.pid = s := hf.2.2.2.2.2.2.2.1 s hfs
  refine ⟨hst, ?_, ?_⟩
  · intro hrt
    have := hf.2.2.2.2.2.2.1 hrt
    omega
  · intro rn hrn r hr
    exact (hf.2.2.2.2.2.2.2.2.1 r hr).2 rn hrn

/-- Concrete instantiation of `c4_amended` at `p4m` (pinned at 500 with a
min-start floor of 600) and the candidate `c4m` scheduling it at 500: the
model is satisfied, showing the min-start floor is overridden by the pin. -/
theorem c4_witness :
    modelSat regularRooms [p4m] c4m = true ∧
    (c4m.startv p4m.pid = 500 ∧
      (DAY_START < p4m.readyTime → p4m.readyTime ≤ 500) ∧
      (∀ rn, p4m.fixedRoom = some rn → ∀ r ∈ compatRooms regularRooms p4m,
        c4m.inRoom p4m.pid r.id = (rn == r.name))) :=
  ⟨by decide, c4_amended [p4m] c4m p4m 500 (by decide) (by decide) rfl⟩

/-- The Waitlist row the solve produces for the unschedulable case `p6`. -/
def c6row : Row :=
  { patientId := "P6", rtype := "Dental", surgeon := none, room := "Waitlist",
    startTime := "08:00", endTime := "09:00", duration := 60,
    startMins := 480, endMins := 540, risk := 1 }

/-- The ordinary row the same solve produces for `p6b`. -/
def c6brow : Row :=
  { patientId := "P6B", rtype := "General", surgeon := none, room := "OR-5 (General)",
    startTime := "10:00", endTime := "11:00", duration := 60,
    startMins := 600, endMins := 660, risk := 1 }

/-- Claim C6 is false on the code: a case whose type no room supports is
dropped from the room constraints but the extraction loop still iterates
over every input case, so the returned set contains a row for it (with room
"Waitlist"), rather than excluding it. -/
theorem c6_counterexample :
    solveWith regularRooms [p6, p6b] (some c6) = some [c6row, c6brow] ∧
    c6row.patientId = "P6" ∧ c6row.room = "Waitlist" :=
  ⟨by decide, rfl, rfl⟩

/-- Claim C6 (amended): a case with no compatible room is dropped from the
constraint model's room constraints, and the remaining cases are scheduled
normally, but the case is not excluded from the returned Assignment set: it
appears there as a row with room "Waitlist". -/
theorem c6_amended (pts : List Patient) (c : Cand) (p : Patient) (rows : List Row)
    (hp : p ∈ pts) (hcomp : compatRooms regularRooms p = [])
    (hs : solveWith regularRooms pts (some c) = some rows) :
    ∃ row ∈ rows, row.patientId = p.pid ∧ row.room = "Waitlist" := by
  simp only [solveWith] at hs
  cases hms : modelSat regularRooms pts c with
  | false => rw [hms] at hs; simp at hs
  | true =>
    rw [hms] at hs
    simp only [if_true] at hs
    obtain rfl : sortByStart (pts.map (extractRow regularRooms c)) = rows :=
      Option.some.inj hs
    refine ⟨extractRow regularRooms c p,
      mem_sortByStart.mpr (List.mem_map_of_mem _ hp), rfl, ?_⟩
    simp [extractRow, hcomp]

/-- Concrete instantiation of `c6_amended` at the two-case solve. -/
theorem c6_witness : ∃ row ∈ [c6row, c6brow], row.patientId = "P6" ∧ row.room = "Waitlist" :=
  c6_amended [p6, p6b] c6 p6 [c6row, c6brow] (by decide) (by decide) (by decide)

/-- Claim C10: a start-delay event naming an unknown case id returns with
the whole controller state unchanged — no case record is mutated, the
current schedule is kept, and no re-solve result is stored. -/
theorem c10_unknown_case (st : SystemState) (pid reason : String)
    (readyMins nowMins : Int) (roomName : Option String) (found : Option Cand)
    (hfind : st.activePatients.find? (fun p => p.pid == pid) = none) :
    handle_start_delay st pid reason readyMins nowMins roomName found = st := by
  unfold handle_start_delay
  rw [hfind]

/-- Concrete instantiation of `c10_unknown_case` at a one-case state. -/
theorem c10_witness :
    handle_start_delay st5 "NOPE" "Patient Not Ready" 600 500 none none = st5 :=
  c10_unknown_case st5 "NOPE" "Patient Not Ready" 600 500 none none (by decide)

/-- Claim C9: every row of a successful solve satisfies
`end_mins = start_mins + duration` (the master interval equation),
`480 ≤ start_mins ≤ end_mins ≤ 1440` (the variable domains run from
DAY_START to the 24:00 horizon), and the display strings are the minute
values rendered as zero-padded `start//60 : start%60`. -/
theorem c9_row_invariants (rooms : List Room) (pts : List Patient) (c : Cand)
    (rows : List Row) (row : Row)
    (hs : solveWith rooms pts (some c) = some rows) (hr : row ∈ rows) :
    row.endMins = row.startMins + row.duration ∧
    DAY_START ≤ row.startMins ∧ row.startMins ≤ row.endMins ∧ row.endMins ≤ horizon ∧
    row.startTime = fmtHHMM row.startMins ∧ row.endTime = fmtHHMM row.endMins := by
  simp only [solveWith] at hs
  cases hms : modelSat rooms pts c with
  | false => rw [hms] at hs; simp at hs
  | true =>
    rw [hms] at hs
    simp only [if_true] at hs
    obtain rfl : sortByStart (pts.map (extractRow rooms c)) = rows := Option.some.inj hs
    obtain ⟨p, hp, rfl⟩ := List.mem_map.mp (mem_sortByStart.mp hr)
    have hf := patientOk_facts (modelSat_patient hms hp)
    have h0 : 0 ≤ p.duration := hf.1
    have hdur : c.endv p.pid = c.startv p.pid + p.duration := hf.2.2.2.2.2.1
    refine ⟨hdur, hf.2.1, ?_, hf.2.2.2.2.1, rfl, rfl⟩
    show c.startv p.pid ≤ c.endv p.pid
    omega

/-- Concrete instantiation of `c9_row_invariants` at the solve of `p3`. -/
theorem c9_witness :
    c3row.endMins = c3row.startMins + c3row.duration ∧
    DAY_START ≤ c3row.startMins ∧ c3row.startMins ≤ c3row.endMins ∧
    c3row.endMins ≤ horizon ∧
    c3row.startTime = fmtHHMM c3row.startMins ∧ c3row.endTime = fmtHHMM c3row.endMins :=
  c9_row_invariants regularRooms [p3] c3 [c3row] c3row (by decide) (by decide)

/-- Claim C1 is refuted by the code: starting from a state that holds a
previous schedule, a duration-adjustment event whose re-solve model is
infeasible (case PA is pinned at its past start 480 while an earlier delay
left its ready floor at 660 — conflicting pin and floor) stores the solve's
`None` into `current_schedule` for every possible solver outcome: the
previous Assignment is lost, not retained. -/
theorem c1_infeasible_schedule_lost :
    st1.currentSchedule = some [schedRowA] ∧
    ∀ found, (handle_emergency st1 "PA" 30 600 found).currentSchedule = none := by
  refine ⟨rfl, ?_⟩
  intro found
  match found with
  | none => rfl
  | some c =>
    show solveWith regularRooms [pA2] (some c) = none
    have hms : modelSat regularRooms [pA2] c = false := by
      cases h : modelSat regularRooms [pA2] c with
      | false => rfl
      | true =>
        exfalso
        have hf := patientOk_facts (modelSat_patient h (List.mem_singleton.mpr rfl))
        have h1 := hf.2.2.2.2.2.2.1 (by decide)
        have h2 := hf.2.2.2.2.2.2.2.1 480 (by decide)
        have h3 : pA2.readyTime = 660 := by decide
        omega
    simp [solveWith, hms]

/-- Claim C7: emergency direct booking keeps the active case set untouched
(and, being defined without any reference to `solveWith`, never invokes the
optimizer), and the stored schedule is an ascending-by-start reordering of
the previous rows plus exactly one new row whose start is `now`, whose end
is `now + predicted duration`, whose room is the dedicated emergency room
and whose surgeon is the reserve surgeon for the case's type (with the
`Dr. Grey` fallback). -/
theorem c7_code_red (st : SystemState) (s : List Row) (details : EmergencyDetails)
    (nowMins durationPred : Int) (hs : st.currentSchedule = some s) :
    (handle_code_red st details nowMins durationPred).activePatients = st.activePatients ∧
    (handle_code_red st details nowMins durationPred).currentSchedule =
      some (sortByStart (s ++ [codeRedRow details nowMins durationPred])) ∧
    List.Perm (sortByStart (s ++ [codeRedRow details nowMins durationPred]))
      (s ++ [codeRedRow details nowMins durationPred]) ∧
    (sortByStart (s ++ [codeRedRow details nowMins durationPred])).Sorted rowLE ∧
    (codeRedRow details nowMins durationPred).startMins = nowMins ∧
    (codeRedRow details nowMins durationPred).endMins = nowMins + durationPred ∧
    (codeRedRow details nowMins durationPred).room = EMERGENCY_RESERVE_ROOM.name ∧
    (codeRedRow details nowMins durationPred).surgeon =
      some (reserveSurgeonFor details.surgeryType) := by
  refine ⟨?_, ?_, sortByStart_perm _, sortByStart_sorted _, rfl, rfl, rfl, rfl⟩
  · simp only [handle_code_red, hs]
  · simp only [handle_code_red, hs]

/-- Concrete instantiation of `c7_code_red`: a Cardiovascular code-red at
11:15 on the one-case state `st5`. -/
theorem c7_witness :
    (handle_code_red st5 ⟨"PE", "Cardiovascular", 4⟩ 675 90).activePatients =
      st5.activePatients ∧
    (handle_code_red st5 ⟨"PE", "Cardiovascular", 4⟩ 675 90).currentSchedule =
      some (sortByStart ([schedRow5] ++ [codeRedRow ⟨"PE", "Cardiovascular", 4⟩ 675 90])) ∧
    List.Perm (sortByStart ([schedRow5] ++ [codeRedRow ⟨"PE", "Cardiovascular", 4⟩ 675 90]))
      ([schedRow5] ++ [codeRedRow ⟨"PE", "Cardiovascular", 4⟩ 675 90]) ∧
    (sortByStart ([schedRow5] ++ [codeRedRow ⟨"PE", "Cardiovascular", 4⟩ 675 90])).Sorted
      rowLE ∧
    (codeRedRow ⟨"PE", "Cardiovascular", 4⟩ 675 90).startMins = 675 ∧
    (codeRedRow ⟨"PE", "Cardiovascular", 4⟩ 675 90).endMins = 675 + 90 ∧
    (codeRedRow ⟨"PE", "Cardiovascular", 4⟩ 675 90).room = EMERGENCY_RESERVE_ROOM.name ∧
    (codeRedRow ⟨"PE", "Cardiovascular", 4⟩ 675 90).surgeon =
      some (reserveSurgeonFor "Cardiovascular") :=
  c7_code_red st5 [schedRow5] ⟨"PE", "Cardiovascular", 4⟩ 675 90 rfl

/-- Every branch of the per-patient start-delay mutation either keeps
`ready_time` or raises it to `max existing ready_at`. -/
theorem delayAdjust_readyTime (pid reason : String) (tS : Option String)
    (readyMins : Int) (roomName : Option String) (p : Patient) :
    (delayAdjust pid reason tS readyMins roomName p).readyTime = p.readyTime ∨
    (delayAdjust pid reason tS readyMins roomName p).readyTime =
      max p.readyTime readyMins := by
  unfold delayAdjust
  by_cases h1 : (reason == "Surgeon Running Late") = true
  · rw [if_pos h1]
    by_cases h2 : (p.surgeon == tS) = true
    · rw [if_pos h2]; exact Or.inr rfl
    · rw [if_neg h2]; exact Or.inl rfl
  · rw [if_neg h1]
    by_cases h3 : (reason == "Room Cleaning" || reason == "OT Not Ready") = true
    · rw [if_pos h3]
      cases roomName with
      | some rn => exact Or.inl rfl
      | none =>
        by_cases h4 : (p.pid == pid) = true
        · rw [if_pos h4]; exact Or.inr rfl
        · rw [if_neg h4]; exact Or.inl rfl
    · rw [if_neg h3]
      by_cases h4 : (p.pid == pid) = true
      · rw [if_pos h4]; exact Or.inr rfl
      · rw [if_neg h4]; exact Or.inl rfl

/-- The pin logic of `handle_start_delay` never touches `ready_time`. -/
theorem pinDelay_readyTime (sched : List Row) (nowMins : Int) (p : Patient) :
    (pinDelay sched nowMins p).readyTime = p.readyTime := by
  unfold pinDelay
  cases sched.find? (fun row => row.patientId == p.pid) with
  | none => rfl
  | some row =>
    by_cases h : row.startMins < nowMins
    · simp only [h, if_true]
    · simp only [h, if_false]

theorem forall₂_map_of {R : Patient → Patient → Prop} {f : Patient → Patient}
    (l : List Patient) (h : ∀ x, R x (f x)) : List.Forall₂ R l (l.map f) := by
  induction l with
  | nil => exact List.Forall₂.nil
  | cons a t ih => exact List.Forall₂.cons (h a) ih

/-- Claim C8: across any single start-delay event (any reason, any room),
every active case's `ready_time` is either kept or set to the max of its
existing value and the event's `ready_at` — in particular it never
decreases, so it is monotone across any sequence of such events. -/
theorem c8_monotonic_readiness (st : SystemState) (pid reason : String)
    (readyMins nowMins : Int) (roomName : Option String) (found : Option Cand) :
    List.Forall₂
      (fun a b => a.readyTime ≤ b.readyTime ∧
        (b.readyTime = a.readyTime ∨ b.readyTime = max a.readyTime readyMins))
      st.activePatients
      (handle_start_delay st pid reason readyMins nowMins roomName found).activePatients := by
  unfold handle_start_delay
  cases hfind : st.activePatients.find? (fun p => p.pid == pid) with
  | none =>
    exact List.forall₂_same.mpr (fun x _ => ⟨le_refl _, Or.inl rfl⟩)
  | some target =>
    have hone : ∀ x : Patient,
        x.readyTime ≤ (delayAdjust pid reason target.surgeon readyMins roomName x).readyTime ∧
        ((delayAdjust pid reason target.surgeon readyMins roomName x).readyTime =
            x.readyTime ∨
          (delayAdjust pid reason target.surgeon readyMins roomName x).readyTime =
            max x.readyTime readyMins) := by
      intro x
      rcases delayAdjust_readyTime pid reason target.surgeon readyMins roomName x with h | h
      · rw [h]; exact ⟨le_refl _, Or.inl rfl⟩
      · rw [h]; exact ⟨le_max_left _ _, Or.inr rfl⟩
    cases hsch : st.currentSchedule with
    | none =>
      show List.Forall₂ _ st.activePatients
        (st.activePatients.map (delayAdjust pid reason target.surgeon readyMins roomName))
      exact forall₂_map_of _ hone
    | some sched =>
      show List.Forall₂ _ st.activePatients
        ((st.activePatients.map
          (delayAdjust pid reason target.surgeon readyMins roomName)).map
            (pinDelay sched nowMins))
      rw [List.map_map]
      exact forall₂_map_of _ (fun x => by
        rw [Function.comp_apply, pinDelay_readyTime]
        exact hone x)

theorem durAdjust_pid (tid : String) (delta : Int) (p : Patient) :
    (durAdjust tid delta p).pid = p.pid := by
  unfold durAdjust
  by_cases h : (p.pid == tid) = true
  · rw [if_pos h]
  · rw [if_neg h]

theorem durAdjust_ptype (tid : String) (delta : Int) (p : Patient) :
    (durAdjust tid delta p).ptype = p.ptype := by
  unfold durAdjust
  by_cases h : (p.pid == tid) = true
  · rw [if_pos h]
  · rw [if_neg h]

theorem compatRooms_ptype {rooms : List Room} {p q : Patient} (h : p.ptype = q.ptype) :
    compatRooms rooms p = compatRooms rooms q := by
  unfold compatRooms
  simp only [h]

theorem delayAdjust_pid (pid reason : String) (tS : Option String)
    (readyMins : Int) (roomName : Option String) (p : Patient) :
    (delayAdjust pid reason tS readyMins roomName p).pid = p.pid := by
  unfold delayAdjust
  by_cases h1 : (reason == "Surgeon Running Late") = true
  · rw [if_pos h1]
    by_cases h2 : (p.surgeon == tS) = true
    · rw [if_pos h2]
    · rw [if_neg h2]
  · rw [if_neg h1]
    by_cases h3 : (reason == "Room Cleaning" || reason == "OT Not Ready") = true
    · rw [if_pos h3]
      cases roomName with
      | some rn => rfl
      | none =>
        by_cases h4 : (p.pid == pid) = true
        · rw [if_pos h4]
        · rw [if_neg h4]
    · rw [if_neg h3]
      by_cases h4 : (p.pid == pid) = true
      · rw [if_pos h4]
      · rw [if_neg h4]

theorem delayAdjust_ptype (pid reason : String) (tS : Option String)
    (readyMins : Int) (roomName : Option String) (p : Patient) :
    (delayAdjust pid reason tS readyMins roomName p).ptype = p.ptype := by
  unfold delayAdjust
  by_cases h1 : (reason == "Surgeon Running Late") = true
  · rw [if_pos h1]
    by_cases h2 : (p.surgeon == tS) = true
    · rw [if_pos h2]
    · rw [if_neg h2]
  · rw [if_neg h1]
    by_cases h3 : (reason == "Room Cleaning" || reason == "OT Not Ready") = true
    · rw [if_pos h3]
      cases roomName with
      | some rn => rfl
      | none =>
        by_cases h4 : (p.pid == pid) = true
        · rw [if_pos h4]
        · rw [if_neg h4]
    · rw [if_neg h3]
      by_cases h4 : (p.pid == pid) = true
      · rw [if_pos h4]
      · rw [if_neg h4]

/-- A case whose scheduled start lies strictly before `now` is pinned by
the duration-adjustment pin logic at that start and room. -/
theorem pinEmergency_past (sched : List Row) (nowMins : Int) (q : Patient) (row : Row)
    (hfind : sched.find? (fun r => r.patientId == q.pid) = some row)
    (hpast : row.startMins < nowMins) :
    pinEmergency sched nowMins q =
      { q with fixedStart := some row.startMins, fixedRoom := some row.room } := by
  unfold pinEmergency
  rw [hfind]
  simp [hpast]

/-- A case whose scheduled start lies strictly before `now` is pinned by
the start-delay pin logic at that start and room (the past branch of
`pinDelay` coincides with `pinEmergency`). -/
theorem pinDelay_past (sched : List Row) (nowMins : Int) (q : Patient) (row : Row)
    (hfind : sched.find? (fun r => r.patientId == q.pid) = some row)
    (hpast : row.startMins < nowMins) :
    pinDelay sched nowMins q =
      { q with fixedStart := some row.startMins, fixedRoom := some row.room } := by
  unfold pinDelay
  rw [hfind]
  simp [hpast]

/-- Core of pin stability: a patient in the solved set whose
`fixed_start`/`fixed_room` equal a previous row's start and room gets an
extracted row with exactly that start and room, in any successful solve.
`hroom` is the well-formedness invariant of schedules the system itself
produces: a case with no compatible room is only ever rowed as
"Waitlist". -/
theorem pinned_row_in_solve (pts2 : List Patient) (c : Cand) (q : Patient) (row : Row)
    (rows : List Row) (hq : q ∈ pts2)
    (hqfs : q.fixedStart = some row.startMins)
    (hqfr : q.fixedRoom = some row.room)
    (hroom : compatRooms regularRooms q = [] → row.room = "Waitlist")
    (hsolve : solveWith regularRooms pts2 (some c) = some rows) :
    ∃ rowNew ∈ rows, rowNew.patientId = q.pid ∧
      rowNew.startMins = row.startMins ∧ rowNew.room = row.room := by
  simp only [solveWith] at hsolve
  cases hms : modelSat regularRooms pts2 c with
  | false => rw [hms] at hsolve; simp at hsolve
  | true =>
    rw [hms] at hsolve
    simp only [if_true] at hsolve
    obtain rfl : sortByStart (pts2.map (extractRow regularRooms c)) = rows :=
      Option.some.inj hsolve
    have hf := patientOk_facts (modelSat_patient hms hq)
    have hstart := hf.2.2.2.2.2.2.2.1 row.startMins hqfs
    refine ⟨extractRow regularRooms c q,
      mem_sortByStart.mpr (List.mem_map_of_mem _ hq), rfl, hstart, ?_⟩
    cases hcq : compatRooms regularRooms q with
    | nil =>
      show (((compatRooms regularRooms q).find? (fun r => c.inRoom q.pid r.id)).map
        (fun r => r.name)).getD "Waitlist" = row.room
      rw [hcq]
      simpa using (hroom hcq).symm
    | cons r1 rs =>
      have hne : compatRooms regularRooms q ≠ [] := by rw [hcq]; simp
      have hcnt := hf.2.2.2.2.2.2.2.2.2 hne
      cases hfq : (compatRooms regularRooms q).find? (fun r => c.inRoom q.pid r.id) with
      | none =>
        exfalso
        have hz := List.find?_eq_none.mp hfq
        have hzero : (compatRooms regularRooms q).countP
            (fun r => c.inRoom q.pid r.id) = 0 := by
          apply List.countP_eq_zero.mpr
          intro r hr
          simpa using hz r hr
        omega
      | some r0 =>
        have hr0mem := List.mem_of_find?_eq_some hfq
        have hr0true := List.find?_some hfq
        have hforce := (hf.2.2.2.2.2.2.2.2.1 r0 hr0mem).2 row.room hqfr
        have hnameeq : row.room = r0.name := by
          rw [hforce] at hr0true
          simpa using hr0true
        show (((compatRooms regularRooms q).find? (fun r => c.inRoom q.pid r.id)).map
          (fun r => r.name)).getD "Waitlist" = row.room
        rw [hfq]
        exact hnameeq.symm

/-- Claim C5: for every case whose last computed start is strictly before
the event's `now` cursor, any re-solve triggered by a disruption event — a
duration adjustment with a signed delay, or a start delay of any reason —
pins that case at its previous start and room, so whenever the event leaves
an Assignment in place it contains a row for the case with the identical
start minute and identical room.  `hroom` is the well-formedness invariant
of schedules produced by the system itself: a case with no compatible room
is only ever rowed as "Waitlist" (so Waitlist rows are covered too). -/
theorem c5_pin_stability (st : SystemState) (sched rows : List Row) (p : Patient)
    (row : Row) (ev : Disruption) (nowMins : Int) (c : Cand)
    (hsch : st.currentSchedule = some sched)
    (hp : p ∈ st.activePatients)
    (hfind : sched.find? (fun r => r.patientId == p.pid) = some row)
    (hpast : row.startMins < nowMins)
    (hroom : compatRooms regularRooms p = [] → row.room = "Waitlist")
    (hres : (applyDisruption st ev nowMins (some c)).currentSchedule = some rows) :
    ∃ rowNew ∈ rows, rowNew.patientId = p.pid ∧
      rowNew.startMins = row.startMins ∧ rowNew.room = row.room := by
  cases ev with
  | durationAdjust tid delta =>
    have hfind2 : sched.find?
        (fun r => r.patientId == (durAdjust tid delta p).pid) = some row := by
      rw [durAdjust_pid]
      exact hfind
    have hpinned := pinEmergency_past sched nowMins (durAdjust tid delta p) row hfind2 hpast
    simp only [applyDisruption, handle_emergency, hsch] at hres
    have hqmem : pinEmergency sched nowMins (durAdjust tid delta p) ∈
        (st.activePatients.map (durAdjust tid delta)).map (pinEmergency sched nowMins) :=
      List.mem_map_of_mem _ (List.mem_map_of_mem _ hp)
    rw [hpinned] at hqmem
    have hqroom : compatRooms regularRooms ({ durAdjust tid delta p with
        fixedStart := some row.startMins, fixedRoom := some row.room } : Patient) = [] →
        row.room = "Waitlist" := by
      intro h
      apply hroom
      rw [← compatRooms_ptype (durAdjust_ptype tid delta p)]
      exact h
    obtain ⟨rn, hrn, h1, h2, h3⟩ :=
      pinned_row_in_solve _ c _ row rows hqmem rfl rfl hqroom hres
    exact ⟨rn, hrn, h1.trans (durAdjust_pid tid delta p), h2, h3⟩
  | startDelay pid reason readyMins roomName =>
    cases htgt : st.activePatients.find? (fun x => x.pid == pid) with
    | none =>
      simp only [applyDisruption, handle_start_delay, htgt, hsch] at hres
      obtain rfl : sched = rows := Option.some.inj hres
      exact ⟨row, List.mem_of_find?_eq_some hfind,
        by simpa using List.find?_some hfind, rfl, rfl⟩
    | some target =>
      have hfind2 : sched.find? (fun r => r.patientId ==
          (delayAdjust pid reason target.surgeon readyMins roomName p).pid) = some row := by
        rw [delayAdjust_pid]
        exact hfind
      have hpinned := pinDelay_past sched nowMins
        (delayAdjust pid reason target.surgeon readyMins roomName p) row hfind2 hpast
      simp only [applyDisruption, handle_start_delay, htgt, hsch] at hres
      have hqmem : pinDelay sched nowMins
          (delayAdjust pid reason target.surgeon readyMins roomName p) ∈
          (st.activePatients.map
            (delayAdjust pid reason target.surgeon readyMins roomName)).map
              (pinDelay sched nowMins) :=
        List.mem_map_of_mem _ (List.mem_map_of_mem _ hp)
      rw [hpinned] at hqmem
      have hqroom : compatRooms regularRooms
          ({ delayAdjust pid reason target.surgeon readyMins roomName p with
            fixedStart := some row.startMins, fixedRoom := some row.room } : Patient) = [] →
          row.room = "Waitlist" := by
        intro h
        apply hroom
        rw [← compatRooms_ptype (delayAdjust_ptype pid reason target.surgeon readyMins
          roomName p)]
        exact h
      obtain ⟨rn, hrn, h1, h2, h3⟩ :=
        pinned_row_in_solve _ c _ row rows hqmem rfl rfl hqroom hres
      exact ⟨rn, hrn,
        h1.trans (delayAdjust_pid pid reason target.surgeon readyMins roomName p), h2, h3⟩

/-- The row the re-solve after the duration adjustment produces for `p5`. -/
def c5row : Row :=
  { patientId := "P5", rtype := "General", surgeon := none, room := "OR-5 (General)",
    startTime := "08:00", endTime := "09:30", duration := 90,
    startMins := 480, endMins := 570, risk := 1 }

/-- Concrete instantiation of `c5_pin_stability`: case P5 started at 08:00
in OR-5; a duration adjustment of +30 at `now = 08:20` reproduces start 480
and room OR-5 in the re-solve result. -/
theorem c5_witness :
    ∃ rowNew ∈ [c5row], rowNew.patientId = "P5" ∧
      rowNew.startMins = 480 ∧ rowNew.room = "OR-5 (General)" :=
  c5_pin_stability st5 [schedRow5] [c5row] p5 schedRow5
    (Disruption.durationAdjust "P5" 30) 500 c5c rfl
    (by decide) (by decide) (by decide) (by decide) (by decide)
